import Mathlib

/-!
Verification development for the disaster-response agent system.

Shallow embedding of the agent kernel (`src/lab3/fsm_agent.py`) and the
messaging substrate (`src/lab4/fipa_acl.py`, `src/lab4/communicating_agent.py`).

Modelling conventions:
* Python values stored in message content / event data are modelled by the
  inductive `Content` (Python `None` is `Content.null`).
* Wall-clock readings (`datetime.now()`) are modelled by an explicit `Nat`
  argument `now`; successive readings inside one operation are modelled by a
  per-agent `clock` counter.  Timestamps never influence control flow in the
  source, only identifier generation and logging.
* A Python exception raised by a guard is modelled by the guard returning
  `Except.error`; `Transition.can_transition` catches it exactly as the
  `try/except` in the source does.
* A Python exception raised by a message handler is modelled by the handler
  returning `(mutatedState, some errorText)`: mutations performed before the
  raise persist, as they do in Python.
* Logging (`_log_trace`, `logging`) has no effect on any observable state the
  spec talks about and is omitted.
-/

namespace DisasterResponse

/-- Scalar Python values stored inside a content dict.  `null` models
Python `None`. -/
inductive Value where
  | null : Value
  | vstr (s : String) : Value
  | vnum (n : Int) : Value
  | vbool (b : Bool) : Value
deriving DecidableEq, Repr

/-- Python-style values used for message `content` and event `data`.
`null` models Python `None`; `dict` models a Python dict as an association
list in key-insertion order.  (Deeper nesting never influences any behaviour
the spec talks about: the kernel only ever passes content through, checks
`isinstance(content, dict)`, and looks up top-level keys.) -/
inductive Content where
  | null : Content
  | str (s : String) : Content
  | num (n : Int) : Content
  | boolean (b : Bool) : Content
  | dict (entries : List (String × Value)) : Content
deriving DecidableEq, Repr

/-- Lookup of a key in a Python dict modelled as an association list
(`d.get(k)` / `k in d`). -/
def lookupEntry (k : String) : List (String × Value) → Option Value
  | [] => none
  | kv :: rest => if kv.1 = k then some kv.2 else lookupEntry k rest

/-- Event from `fsm_agent.py` (class `Event`): a stimulus with a type tag,
payload and priority.  The wall-clock `timestamp` and the derived `event_id`
are not modelled (they never influence kernel behaviour). -/
structure Event where
  event_type : String
  data : Content
  priority : Int
deriving DecidableEq, Repr

/-- The mutable part of an `FSMAgent` that transition guards and actions can
observe and mutate: the current state and domain-specific fields (`domain`),
plus the append-only state history.  The transition-rule list and the event
queue are passed separately to the kernel functions, mirroring how
`_react_to_event` iterates `self.transitions` and `process_events` drains
`self.event_queue`.  History entries are `(new_state, triggering event type)`;
the wall-clock timestamp and formatted reason string are not modelled. -/
structure AgentCore (σ St : Type) where
  current_state : St
  domain : σ
  state_history : List (St × String)

/-- Transition rule from `fsm_agent.py` (class `Transition`): a
(from-state, to-state) pair with a guard (`condition`) and an optional
`action`.  A guard that raises is an `Except.error`. -/
structure Transition (σ St : Type) where
  from_state : St
  to_state : St
  condition : AgentCore σ St → Event → Except String Bool
  action : Option (AgentCore σ St → Event → AgentCore σ St)

/-- Model of `Transition.can_transition`: evaluates the guard, catching any exception
and treating it as `False` (the `try/except` in the source). -/
def Transition.can_transition {σ St : Type} (t : Transition σ St)
    (a : AgentCore σ St) (e : Event) : Bool :=
  match t.condition a e with
  | Except.ok b => b
  | Except.error _ => false

/-- Model of `Transition.execute_action`: runs the action if one is defined. -/
def Transition.execute_action {σ St : Type} (t : Transition σ St)
    (a : AgentCore σ St) (e : Event) : AgentCore σ St :=
  match t.action with
  | some act => act a e
  | none => a

/-- Model of `FSMAgent._react_to_event`: scan the transition rules in registration
order; the first rule whose `from_state` equals the current state and whose
guard is true fires (action first, then state change and history append), and
the scan stops (`break`).  Returns the updated core and the rule that fired,
if any. -/
def react_to_event {σ St : Type} [DecidableEq St] :
    List (Transition σ St) → AgentCore σ St → Event →
      AgentCore σ St × Option (Transition σ St)
  | [], a, _ => (a, none)
  | t :: rest, a, e =>
    if t.from_state = a.current_state then
      if t.can_transition a e then
        let a1 := t.execute_action a e
        ({ a1 with
            current_state := t.to_state,
            state_history := a1.state_history ++ [(t.to_state, e.event_type)] },
          some t)
      else react_to_event rest a e
    else react_to_event rest a e

/-- The comparison under which Python's
`event_queue.sort(key=lambda e: e.priority, reverse=True)` orders the queue:
`a` may precede `b` iff `a.priority ≥ b.priority`. -/
def prioGE (a b : Event) : Bool := b.priority ≤ a.priority

/-- Model of `FSMAgent.receive_event`: append the event to the queue, then stably
re-sort by priority descending.  Python's `list.sort` is a stable sort, so it
is modelled by the (stable) `List.mergeSort`. -/
def receive_event (q : List Event) (e : Event) : List Event :=
  (q ++ [e]).mergeSort prioGE

/-- Model of `FSMAgent.process_events`: repeatedly pop the front of the queue and react
to it, until the queue is empty.  (No transition action in the repository
touches the event queue, so the drain is a fold over the queue contents.) -/
def process_events {σ St : Type} [DecidableEq St] (ts : List (Transition σ St)) :
    AgentCore σ St → List Event → AgentCore σ St
  | a, [] => a
  | a, e :: rest => process_events ts (react_to_event ts a e).1 rest

/-- The scan of `_react_to_event` returns exactly the first-registered rule
whose `from_state` matches the current state and whose guard is true. -/
lemma react_to_event_snd_eq_find {σ St : Type} [DecidableEq St]
    (ts : List (Transition σ St)) (a : AgentCore σ St) (e : Event) :
    (react_to_event ts a e).2
      = ts.find? (fun t => decide (t.from_state = a.current_state) && t.can_transition a e) := by
  induction ts with
  | nil => rfl
  | cons t rest ih =>
    by_cases h1 : t.from_state = a.current_state
    · by_cases h2 : t.can_transition a e = true
      · simp [react_to_event, List.find?, h1, h2]
      · simp only [Bool.not_eq_true] at h2
        simp [react_to_event, List.find?, h1, h2, ih]
    · simp [react_to_event, List.find?, h1, ih]

/-- When no rule matches, `_react_to_event` leaves the agent unchanged. -/
lemma react_to_event_no_match {σ St : Type} [DecidableEq St]
    (ts : List (Transition σ St)) (a : AgentCore σ St) (e : Event)
    (h : ts.find? (fun t => decide (t.from_state = a.current_state) && t.can_transition a e)
          = none) :
    react_to_event ts a e = (a, none) := by
  induction ts with
  | nil => rfl
  | cons t rest ih =>
    rw [List.find?_cons] at h
    by_cases h1 : t.from_state = a.current_state
    · by_cases h2 : t.can_transition a e = true
      · simp [h1, h2] at h
      · simp only [Bool.not_eq_true] at h2
        simp only [h1, h2, decide_True, Bool.true_and] at h
        simpa [react_to_event, h1, h2] using ih h
    · simp only [h1, decide_False, Bool.false_and] at h
      simpa [react_to_event, h1] using ih h

/-- C1: for every agent state and every dequeued event, at most one transition
rule fires: the rule returned by `_react_to_event` is exactly the
first-registered rule whose `from_state` equals the current state and whose
guard returns true; and when no rule matches, the event is consumed with no
state change and no error, and processing continues with the remaining queued
events. -/
theorem at_most_one_transition_fires {σ St : Type} [DecidableEq St]
    (ts : List (Transition σ St)) (a : AgentCore σ St) (e : Event) :
    (react_to_event ts a e).2
        = ts.find? (fun t => decide (t.from_state = a.current_state) && t.can_transition a e)
    ∧ (ts.find? (fun t => decide (t.from_state = a.current_state) && t.can_transition a e)
          = none →
        react_to_event ts a e = (a, none)
        ∧ ∀ es : List Event, process_events ts a (e :: es) = process_events ts a es) := by
  refine ⟨react_to_event_snd_eq_find ts a e, fun h => ?_⟩
  have hra := react_to_event_no_match ts a e h
  exact ⟨hra, fun es => by simp [process_events, hra]⟩

/-- A concrete agent core used to instantiate the kernel theorems. -/
def coreW : AgentCore Unit String :=
  { current_state := "idle", domain := (), state_history := [("idle", "initialized")] }

/-- A concrete event used to instantiate the kernel theorems. -/
def eventW : Event :=
  { event_type := "FIRE_DETECTED", data := Content.null, priority := 4 }

/-- A concrete transition rule whose `from_state` does not match `coreW`. -/
def transW : Transition Unit String :=
  { from_state := "responding", to_state := "idle",
    condition := fun _ _ => Except.ok true, action := none }

theorem at_most_one_transition_fires_witness :
    react_to_event [transW] coreW eventW = (coreW, none) :=
  ((at_most_one_transition_fires [transW] coreW eventW).2 rfl).1

/-- C3: a transition rule whose guard raises is treated as not matching: it
never changes the state, the scan continues with the subsequent rules of the same
event, and the drain continues with the subsequent queued events. -/
theorem failing_guard_is_no_match {σ St : Type} [DecidableEq St]
    (pre post : List (Transition σ St)) (t : Transition σ St)
    (a : AgentCore σ St) (e : Event) (msg : String)
    (herr : t.condition a e = Except.error msg) :
    t.can_transition a e = false
    ∧ react_to_event (pre ++ t :: post) a e = react_to_event (pre ++ post) a e
    ∧ ∀ es : List Event,
        process_events (pre ++ t :: post) a (e :: es)
          = process_events (pre ++ t :: post) (react_to_event (pre ++ post) a e).1 es := by
  have hcf : t.can_transition a e = false := by
    simp [Transition.can_transition, herr]
  have hskip : react_to_event (pre ++ t :: post) a e = react_to_event (pre ++ post) a e := by
    induction pre with
    | nil =>
      by_cases h1 : t.from_state = a.current_state
      · simp [react_to_event, h1, hcf]
      · simp [react_to_event, h1]
    | cons p rest ih =>
      by_cases h1 : p.from_state = a.current_state
      · by_cases h2 : p.can_transition a e = true
        · simp [react_to_event, h1, h2]
        · simp only [Bool.not_eq_true] at h2
          simpa [react_to_event, h1, h2] using ih
      · simpa [react_to_event, h1] using ih
  exact ⟨hcf, hskip, fun es => by simp [process_events, hskip]⟩

/-- A concrete transition rule whose guard raises. -/
def errTransW : Transition Unit String :=
  { from_state := "idle", to_state := "responding",
    condition := fun _ _ => Except.error "guard blew up", action := none }

theorem failing_guard_is_no_match_witness :
    errTransW.can_transition coreW eventW = false
    ∧ react_to_event ([] ++ errTransW :: []) coreW eventW
        = react_to_event ([] ++ []) coreW eventW :=
  ⟨(failing_guard_is_no_match [] [] errTransW coreW eventW "guard blew up" rfl).1,
   (failing_guard_is_no_match [] [] errTransW coreW eventW "guard blew up" rfl).2.1⟩

lemma prioGE_trans :
    ∀ a b c : Event, prioGE a b = true → prioGE b c = true → prioGE a c = true := by
  intro a b c h1 h2
  simp only [prioGE, decide_eq_true_eq] at *
  exact le_trans h2 h1

lemma prioGE_total : ∀ a b : Event, (prioGE a b || prioGE b a) = true := by
  intro a b
  simp only [prioGE, Bool.or_eq_true, decide_eq_true_eq]
  exact le_total b.priority a.priority

/-- Stability of the queue sort, phrased per priority class: sorting preserves
the subsequence of events having any fixed priority. -/
lemma filter_mergeSort_priority (l : List Event) (p : Int) :
    (l.mergeSort prioGE).filter (fun e => decide (e.priority = p))
      = l.filter (fun e => decide (e.priority = p)) := by
  have hmem : ∀ x ∈ l.filter (fun e => decide (e.priority = p)), x.priority = p := by
    intro x hx
    simpa using List.of_mem_filter hx
  have hpair :
      (l.filter (fun e => decide (e.priority = p))).Pairwise
        (fun a b => prioGE a b = true) := by
    apply List.pairwise_of_forall_mem_list
    intro a ha b hb
    simp [prioGE, hmem a ha, hmem b hb]
  have h1 :
      (l.filter (fun e => decide (e.priority = p))).Sublist (l.mergeSort prioGE) :=
    List.sublist_mergeSort prioGE_trans prioGE_total hpair (List.filter_sublist l)
  have hidem :
      (l.filter (fun e => decide (e.priority = p))).filter
          (fun e => decide (e.priority = p))
        = l.filter (fun e => decide (e.priority = p)) :=
    List.filter_eq_self.mpr (fun a ha => by simpa using hmem a ha)
  have h3 :
      (l.filter (fun e => decide (e.priority = p))).Sublist
        ((l.mergeSort prioGE).filter (fun e => decide (e.priority = p))) := by
    have := List.Sublist.filter (fun e => decide (e.priority = p)) h1
    rwa [hidem] at this
  have h2 :
      ((l.mergeSort prioGE).filter (fun e => decide (e.priority = p))).Perm
        (l.filter (fun e => decide (e.priority = p))) :=
    (List.mergeSort_perm l prioGE).filter _
  exact (h3.eq_of_length h2.length_eq.symm).symm

/-- An interleaving of the two queue operations of the kernel: `recv e` is a
call of `receive_event e`, `drain` is a call of `process_events` (which pops
the queue front-first until the queue is empty). -/
inductive AgentOp where
  | recv (e : Event) : AgentOp
  | drain : AgentOp

/-- One step over the queue state: the current pending queue together with the
dequeue segments produced by the earlier `process_events` calls (each segment
lists its dequeued events in dequeue order). -/
def queueStep (st : List Event × List (List Event)) : AgentOp → List Event × List (List Event)
  | AgentOp.recv e => (receive_event st.1 e, st.2)
  | AgentOp.drain => ([], st.2 ++ [st.1])

/-- Run an interleaving of receives and drains from an empty queue. -/
def runQueue (ops : List AgentOp) : List Event × List (List Event) :=
  ops.foldl queueStep ([], [])

/-- The events passed to `receive_event`, in arrival order. -/
def receivedEvents (ops : List AgentOp) : List Event :=
  ops.filterMap fun op =>
    match op with
    | AgentOp.recv e => some e
    | AgentOp.drain => none

lemma receivedEvents_recv (e : Event) (ops : List AgentOp) :
    receivedEvents (AgentOp.recv e :: ops) = e :: receivedEvents ops := rfl

lemma receivedEvents_drain (ops : List AgentOp) :
    receivedEvents (AgentOp.drain :: ops) = receivedEvents ops := rfl

lemma runQueue_inv (ops : List AgentOp) (st : List Event × List (List Event))
    (rec : List Event)
    (hq : st.1.Pairwise (fun a b => prioGE a b = true))
    (hsegs : ∀ seg ∈ st.2, seg.Pairwise (fun a b => prioGE a b = true))
    (hfilter : ∀ p : Int,
        (st.2.flatten ++ st.1).filter (fun e => decide (e.priority = p))
          = rec.filter (fun e => decide (e.priority = p))) :
    (ops.foldl queueStep st).1.Pairwise (fun a b => prioGE a b = true)
    ∧ (∀ seg ∈ (ops.foldl queueStep st).2, seg.Pairwise (fun a b => prioGE a b = true))
    ∧ ∀ p : Int,
        ((ops.foldl queueStep st).2.flatten ++ (ops.foldl queueStep st).1).filter
            (fun e => decide (e.priority = p))
          = (rec ++ receivedEvents ops).filter (fun e => decide (e.priority = p)) := by
  induction ops generalizing st rec with
  | nil =>
    refine ⟨hq, hsegs, fun p => ?_⟩
    simpa only [List.foldl_nil, receivedEvents, List.filterMap_nil, List.append_nil]
      using hfilter p
  | cons op ops ih =>
    cases op with
    | recv e =>
      have hstep :
          queueStep st (AgentOp.recv e) = (receive_event st.1 e, st.2) := rfl
      have h := ih (receive_event st.1 e, st.2) (rec ++ [e])
        (List.sorted_mergeSort prioGE_trans prioGE_total (st.1 ++ [e]))
        hsegs
        (fun p => by
          have hf := hfilter p
          rw [List.filter_append] at hf
          show ((st.2.flatten ++ receive_event st.1 e).filter _) = _
          rw [receive_event, List.filter_append, filter_mergeSort_priority,
            List.filter_append, ← List.append_assoc, hf, ← List.filter_append])
      rw [List.foldl_cons, hstep, receivedEvents_recv]
      rw [List.append_assoc, List.singleton_append] at h
      exact h
    | drain =>
      have hstep : queueStep st AgentOp.drain = ([], st.2 ++ [st.1]) := rfl
      have h := ih ([], st.2 ++ [st.1]) rec
        (by simp)
        (by
          intro seg hseg
          rcases List.mem_append.mp hseg with h1 | h1
          · exact hsegs seg h1
          · simpa [List.mem_singleton.mp h1] using hq)
        (fun p => by
          show (((st.2 ++ [st.1]).flatten ++ []).filter _) = _
          rw [List.append_nil, List.flatten_append, List.flatten_cons, List.flatten_nil,
            List.append_nil]
          exact hfilter p)
      rw [List.foldl_cons, hstep, receivedEvents_drain]
      exact h

/-- C2: for every interleaving of `receive_event` calls with `process_events`
calls, every `process_events` call dequeues its events in non-increasing
priority order, and for each fixed priority the dequeued events (followed by
the still-pending ones) appear in their original arrival order — Python's
`list.sort` being stable is what makes the tie-break hold. -/
theorem events_dequeued_in_priority_order (ops : List AgentOp) :
    (∀ seg ∈ (runQueue ops).2, seg.Pairwise (fun a b : Event => b.priority ≤ a.priority))
    ∧ ∀ p : Int,
        ((runQueue ops).2.flatten ++ (runQueue ops).1).filter (fun e => decide (e.priority = p))
          = (receivedEvents ops).filter (fun e => decide (e.priority = p)) := by
  obtain ⟨h1, h2, h3⟩ :=
    runQueue_inv ops ([], []) [] (by simp) (by simp) (fun p => by simp)
  refine ⟨fun seg hseg => ?_, fun p => ?_⟩
  · exact (h2 seg hseg).imp fun h => by simpa [prioGE] using h
  · have h := h3 p
    rw [List.nil_append] at h
    exact h

/-- A second concrete event (the building-collapse stimulus of the spec's
scenario). -/
def eventW2 : Event :=
  { event_type := "BUILDING_COLLAPSE", data := Content.null, priority := 5 }

theorem events_dequeued_in_priority_order_witness :
    List.Pairwise (fun a b : Event => b.priority ≤ a.priority) [eventW] :=
  (events_dequeued_in_priority_order
      [AgentOp.recv eventW, AgentOp.drain, AgentOp.recv eventW2, AgentOp.drain]).1
    [eventW]
    (by simp [runQueue, queueStep, receive_event])

/-- FIPA-ACL performatives from `fipa_acl.py` (enum `Performative`). -/
inductive Performative where
  | inform : Performative
  | request : Performative
  | query_if : Performative
  | query_ref : Performative
  | confirm : Performative
  | disconfirm : Performative
  | agree : Performative
  | refuse : Performative
  | propose : Performative
  | accept_proposal : Performative
  | reject_proposal : Performative
  | cfp : Performative
  | not_understood : Performative
deriving DecidableEq, Repr

/-- The wire tag of each performative (the enum member's `.value`). -/
def Performative.value : Performative → String
  | inform => "inform"
  | request => "request"
  | query_if => "query-if"
  | query_ref => "query-ref"
  | confirm => "confirm"
  | disconfirm => "disconfirm"
  | agree => "agree"
  | refuse => "refuse"
  | propose => "propose"
  | accept_proposal => "accept-proposal"
  | reject_proposal => "reject-proposal"
  | cfp => "cfp"
  | not_understood => "not-understood"

/-- Parse a wire tag back into a performative (`Performative(value)` in
Python, which raises `ValueError` on an unknown tag — modelled by `none`). -/
def Performative.ofValue (s : String) : Option Performative :=
  if s = "inform" then some inform
  else if s = "request" then some request
  else if s = "query-if" then some query_if
  else if s = "query-ref" then some query_ref
  else if s = "confirm" then some confirm
  else if s = "disconfirm" then some disconfirm
  else if s = "agree" then some agree
  else if s = "refuse" then some refuse
  else if s = "propose" then some propose
  else if s = "accept-proposal" then some accept_proposal
  else if s = "reject-proposal" then some reject_proposal
  else if s = "cfp" then some cfp
  else if s = "not-understood" then some not_understood
  else none

/-- FIPA-ACL message from `fipa_acl.py` (class `ACLMessage`).  `timestamp` is
the `datetime.now()` reading at construction, modelled as a `Nat`. -/
structure ACLMessage where
  performative : Performative
  sender : String
  receiver : String
  content : Content
  language : String
  ontology : String
  protocol : String
  conversation_id : String
  reply_to : Option String
  in_reply_to : Option String
  message_id : String
  timestamp : Nat
deriving DecidableEq, Repr

/-- Model of `ACLMessage._generate_message_id`:
`f"MSG_{self.sender}_{datetime.now().strftime(...)}"`. -/
def genMessageId (sender : String) (now : Nat) : String :=
  "MSG_" ++ sender ++ "_" ++ toString now

/-- Model of `ACLMessage._generate_conversation_id`:
`f"CONV_{datetime.now().strftime(...)}"`. -/
def genConversationId (now : Nat) : String :=
  "CONV_" ++ toString now

/-- Model of `ACLMessage.__init__`: the constructor.  `conversation_id or
self._generate_conversation_id()` generates a fresh id when the supplied one
is `None` or the (falsy) empty string; `now` is the clock reading used by the
two generator calls.  The Python defaults for `language`, `ontology` and
`protocol` are `"python-dict"`, `"disaster-response"` and `"fipa-request"`;
callers of this model pass them explicitly. -/
def ACLMessage.build (performative : Performative) (sender receiver : String)
    (content : Content) (language ontology protocol : String)
    (conversation_id reply_to in_reply_to : Option String) (now : Nat) :
    ACLMessage :=
  { performative := performative
    sender := sender
    receiver := receiver
    content := content
    language := language
    ontology := ontology
    protocol := protocol
    conversation_id :=
      match conversation_id with
      | some s => if s = "" then genConversationId now else s
      | none => genConversationId now
    reply_to := reply_to
    in_reply_to := in_reply_to
    message_id := genMessageId sender now
    timestamp := now }

/-- Model of `ACLMessage.create_reply`: a new message addressed back to the original
sender, preserving language, ontology, protocol and conversation id, with
`in_reply_to` set to the original's `message_id`. -/
def ACLMessage.create_reply (m : ACLMessage) (performative : Performative)
    (content : Content) (sender : String) (now : Nat) : ACLMessage :=
  ACLMessage.build performative sender m.sender content
    m.language m.ontology m.protocol
    (some m.conversation_id) none (some m.message_id) now

/-- Whether `content` is a Python dict containing the key `"action"`
(`isinstance(self.content, dict) and "action" in self.content`). -/
def Content.isDictWithAction : Content → Bool
  | Content.dict entries => entries.any fun kv => kv.1 == "action"
  | _ => false

/-- Model of `ACLMessage.validate`: returns `(is_valid, error_message)`.  The source's
`if not self.performative` check is omitted: an enum member is always truthy
in Python, so that branch is unreachable.  A falsy (empty) sender or receiver
fails; `content is None` fails; a `request` additionally requires a dict
content with an `"action"` key. -/
def ACLMessage.validate (m : ACLMessage) : Bool × Option String :=
  if m.sender = "" then (false, some "Sender is required")
  else if m.receiver = "" then (false, some "Receiver is required")
  else if m.content = Content.null then (false, some "Content is required")
  else if m.performative = Performative.request then
    if m.content.isDictWithAction then (true, none)
    else (false, some "REQUEST performative requires content with action field")
  else (true, none)

/-- The wire form produced by `ACLMessage.to_dict`: a dict with exactly these
keys.  Keys that can be absent on the wire (those read back with `data.get` or
guarded by `in data`) are `Option`-valued; `to_dict` always emits them.  The
ISO round-trip `datetime.fromisoformat(t.isoformat()) = t` is exact, so the
timestamp string is modelled by the `Nat` reading itself. -/
structure MessageDict where
  message_id : Option String
  performative : String
  sender : String
  receiver : String
  content : Content
  language : Option String
  ontology : Option String
  protocol : Option String
  conversation_id : Option String
  reply_to : Option String
  in_reply_to : Option String
  timestamp : Option Nat
deriving DecidableEq, Repr

/-- Model of `ACLMessage.to_dict`. -/
def ACLMessage.to_dict (m : ACLMessage) : MessageDict :=
  { message_id := some m.message_id
    performative := m.performative.value
    sender := m.sender
    receiver := m.receiver
    content := m.content
    language := some m.language
    ontology := some m.ontology
    protocol := some m.protocol
    conversation_id := some m.conversation_id
    reply_to := m.reply_to
    in_reply_to := m.in_reply_to
    timestamp := some m.timestamp }

/-- Model of `ACLMessage.from_dict`: re-parse the performative tag (raising on an
unknown tag), rebuild the message through the constructor, then restore
`message_id` and `timestamp` when those keys are present. -/
def ACLMessage.from_dict (d : MessageDict) (now : Nat) : Except String ACLMessage :=
  match Performative.ofValue d.performative with
  | none => Except.error ("ValueError: invalid performative " ++ d.performative)
  | some p =>
    let msg := ACLMessage.build p d.sender d.receiver d.content
      (d.language.getD "python-dict") (d.ontology.getD "disaster-response")
      (d.protocol.getD "fipa-request") d.conversation_id d.reply_to d.in_reply_to now
    let msg1 :=
      match d.message_id with
      | some mid => { msg with message_id := mid }
      | none => msg
    let msg2 :=
      match d.timestamp with
      | some ts => { msg1 with timestamp := ts }
      | none => msg1
    Except.ok msg2

/-- The communication state of a `CommunicatingAgent`: FIFO inbox, FIFO
outbox, append-only message history.  `clock` models the successive
`datetime.now()` readings used when the agent constructs reply messages. -/
structure CAgent where
  agent_id : String
  inbox : List ACLMessage
  outbox : List ACLMessage
  message_history : List ACLMessage
  clock : Nat

/-- A message handler: it receives the agent (`self`) and the message and
returns the mutated agent together with `some errorText` when it raises.
Mutations performed before a raise persist, exactly as in Python. -/
def Handler : Type := CAgent → ACLMessage → CAgent × Option String

/-- The handler table (`self.message_handlers`), keyed by performative. -/
def HandlerTable : Type := Performative → Option Handler

/-- Model of `CommunicatingAgent.send_message`: validate, and on failure abort (log
only); on success append to the outbox and the message history. -/
def send_message (a : CAgent) (m : ACLMessage) : CAgent :=
  if (ACLMessage.validate m).1 then
    { a with outbox := a.outbox ++ [m], message_history := a.message_history ++ [m] }
  else a

/-- Model of `CommunicatingAgent.receive_message`: append to the inbox and the message
history, unconditionally. -/
def receive_message (a : CAgent) (m : ACLMessage) : CAgent :=
  { a with inbox := a.inbox ++ [m], message_history := a.message_history ++ [m] }

/-- Model of `CommunicatingAgent._send_not_understood`: build a `not-understood` reply
carrying the reason and the original `message_id`, and send it. -/
def send_not_understood (a : CAgent) (original : ACLMessage) (reason : String) :
    CAgent :=
  let reply := original.create_reply Performative.not_understood
    (Content.dict
      [("reason", Value.vstr reason),
       ("original_message", Value.vstr original.message_id)])
    a.agent_id a.clock
  send_message { a with clock := a.clock + 1 } reply

/-- Model of `CommunicatingAgent._process_message`: look up the handler for the
message's performative; no handler, or a handler that raises, produces a
`not-understood` reply.  The function is total: no exception propagates. -/
def process_message (hs : HandlerTable) (a : CAgent) (m : ACLMessage) : CAgent :=
  match hs m.performative with
  | some h =>
    match h a m with
    | (a1, none) => a1
    | (a1, some err) => send_not_understood a1 m err
  | none => send_not_understood a m ("No handler for " ++ m.performative.value)

/-- Model of `CommunicatingAgent.process_messages`: pop the inbox front-first and
process each message.  The `fuel` bound models the (possibly nonterminating)
`while self.inbox:` loop; `fuel` many iterations are executed. -/
def process_messages (hs : HandlerTable) : Nat → CAgent → CAgent
  | 0, a => a
  | Nat.succ fuel, a =>
    match a.inbox with
    | [] => a
    | m :: rest => process_messages hs fuel (process_message hs { a with inbox := rest } m)

/-- Model of `MessageParser.extract_action`: for a `request`, the `"action"` entry of a
dict content (Python `None`, i.e. `Value.null`, when absent) or the `str()` of
a non-dict content; `None` for any other performative. -/
def extract_action (m : ACLMessage) : Value :=
  if m.performative = Performative.request then
    match m.content with
    | Content.dict entries => (lookupEntry "action" entries).getD Value.null
    | Content.null => Value.vstr "None"
    | Content.str s => Value.vstr s
    | Content.num n => Value.vstr (toString n)
    | Content.boolean b => Value.vstr (if b then "True" else "False")
  else Value.null

/-- Default `_handle_inform`: trace-only. -/
def handle_inform : Handler := fun a _ => (a, none)

/-- Default `_handle_query_if`: trace-only. -/
def handle_query_if : Handler := fun a _ => (a, none)

/-- Default `_handle_confirm`: trace-only. -/
def handle_confirm : Handler := fun a _ => (a, none)

/-- Default `_handle_refuse`: trace-only. -/
def handle_refuse : Handler := fun a _ => (a, none)

/-- Default `_handle_request`: always reply `refuse` with the extracted
action. -/
def handle_request : Handler := fun a m =>
  let reply := m.create_reply Performative.refuse
    (Content.dict
      [("reason", Value.vstr "Action not supported"),
       ("action", extract_action m)])
    a.agent_id a.clock
  (send_message { a with clock := a.clock + 1 } reply, none)

/-- Model of `CommunicatingAgent._register_default_handlers`: handlers are registered
for `inform`, `request`, `query-if`, `confirm` and `refuse` only — in
particular, `disconfirm` has NO default handler. -/
def default_handlers : HandlerTable := fun p =>
  match p with
  | Performative.inform => some handle_inform
  | Performative.request => some handle_request
  | Performative.query_if => some handle_query_if
  | Performative.confirm => some handle_confirm
  | Performative.refuse => some handle_refuse
  | _ => none

lemma genConversationId_ne_empty (now : Nat) : genConversationId now ≠ "" := by
  intro h
  have h2 := congrArg String.length h
  rw [genConversationId, String.length_append] at h2
  have h5 : ("CONV_" : String).length = 5 := rfl
  have h0 : ("" : String).length = 0 := rfl
  rw [h5, h0] at h2
  omega

/-- Every message produced by the constructor has a non-empty conversation
id: a supplied falsy (empty) id is replaced by a generated `CONV_...` id. -/
lemma build_conversation_id_ne_empty (p : Performative) (s r : String) (c : Content)
    (lang ont proto : String) (cid rt irt : Option String) (now : Nat) :
    (ACLMessage.build p s r c lang ont proto cid rt irt now).conversation_id ≠ "" := by
  cases cid with
  | none => simpa [ACLMessage.build] using genConversationId_ne_empty now
  | some sid =>
    by_cases h : sid = ""
    · simpa [ACLMessage.build, h] using genConversationId_ne_empty now
    · simp [ACLMessage.build, h]

/-- C5: for every message (every constructible message has a non-empty
conversation id, see `build_conversation_id_ne_empty`) and every choice of
performative, content and sender, `create_reply` addresses the reply to the
original sender, preserves `conversation_id`, `language`, `ontology` and
`protocol`, and sets `in_reply_to` to the original `message_id`. -/
theorem create_reply_preserves_correlation (m : ACLMessage)
    (hm : m.conversation_id ≠ "")
    (p2 : Performative) (c2 : Content) (s2 : String) (now2 : Nat) :
    (m.create_reply p2 c2 s2 now2).receiver = m.sender
    ∧ (m.create_reply p2 c2 s2 now2).conversation_id = m.conversation_id
    ∧ (m.create_reply p2 c2 s2 now2).in_reply_to = some m.message_id
    ∧ (m.create_reply p2 c2 s2 now2).language = m.language
    ∧ (m.create_reply p2 c2 s2 now2).ontology = m.ontology
    ∧ (m.create_reply p2 c2 s2 now2).protocol = m.protocol := by
  refine ⟨rfl, ?_, rfl, rfl, rfl, rfl⟩
  simp [ACLMessage.create_reply, ACLMessage.build, hm]

/-- A concrete request message used to instantiate the messaging theorems. -/
def msgW : ACLMessage :=
  ACLMessage.build Performative.request "agent-A" "agent-B"
    (Content.dict [("action", Value.vstr "investigate_location")])
    "python-dict" "disaster-response" "fipa-request" none none none 3

theorem create_reply_preserves_correlation_witness :
    (msgW.create_reply Performative.refuse (Content.str "no") "agent-B" 9).conversation_id
      = msgW.conversation_id :=
  (create_reply_preserves_correlation msgW (by decide)
      Performative.refuse (Content.str "no") "agent-B" 9).2.1

lemma ofValue_value (p : Performative) :
    Performative.ofValue p.value = some p := by
  cases p <;> rfl

/-- Deserialisation inverts serialisation on every message with a non-empty
conversation id. -/
lemma from_dict_to_dict (m : ACLMessage) (hconv : m.conversation_id ≠ "")
    (now2 : Nat) :
    ACLMessage.from_dict m.to_dict now2 = Except.ok m := by
  simp [ACLMessage.from_dict, ACLMessage.to_dict, ofValue_value, ACLMessage.build, hconv]

/-- C6: serialising any constructed message with `to_dict` and deserialising
with `from_dict` yields a field-equal message, for every performative variant
(`to_json`/`from_json` compose these with the JSON encoding of the dict,
which the `json` library inverts). -/
theorem serialize_roundtrip
    (p : Performative) (s r : String) (c : Content) (lang ont proto : String)
    (cid rt irt : Option String) (now now2 : Nat) :
    ACLMessage.from_dict
        (ACLMessage.to_dict (ACLMessage.build p s r c lang ont proto cid rt irt now)) now2
      = Except.ok (ACLMessage.build p s r c lang ont proto cid rt irt now) :=
  from_dict_to_dict _ (build_conversation_id_ne_empty p s r c lang ont proto cid rt irt now)
    now2

/-- C7: a `request` message whose content lacks an `"action"` field fails
validation, and `send_message` aborts leaving the outbox and the message
history (the whole agent state) unchanged. -/
theorem invalid_request_never_enqueued (a : CAgent) (m : ACLMessage)
    (hp : m.performative = Performative.request)
    (hc : m.content.isDictWithAction = false) :
    (ACLMessage.validate m).1 = false ∧ send_message a m = a := by
  have hv : (ACLMessage.validate m).1 = false := by
    rw [ACLMessage.validate]
    by_cases h1 : m.sender = ""
    · simp [h1]
    · by_cases h2 : m.receiver = ""
      · simp [h1, h2]
      · by_cases h3 : m.content = Content.null
        · simp [h1, h2, h3]
        · simp [h1, h2, h3, hp, hc]
  exact ⟨hv, by simp [send_message, hv]⟩

/-- A concrete `request` message whose content lacks an `"action"` field. -/
def msgNoAction : ACLMessage :=
  ACLMessage.build Performative.request "agent-A" "agent-B"
    (Content.dict [("parameters", Value.vstr "sector-4")])
    "python-dict" "disaster-response" "fipa-request" none none none 4

/-- A concrete communicating agent. -/
def agentW : CAgent :=
  { agent_id := "agent-B", inbox := [], outbox := [], message_history := [], clock := 0 }

theorem invalid_request_never_enqueued_witness :
    (ACLMessage.validate msgNoAction).1 = false ∧ send_message agentW msgNoAction = agentW :=
  invalid_request_never_enqueued agentW msgNoAction rfl rfl

/-- Two messages built by the same sender at the same clock reading. -/
def msgC1 : ACLMessage :=
  ACLMessage.build Performative.inform "agent-A" "agent-B" (Content.str "fire")
    "python-dict" "disaster-response" "fipa-request" none none none 7

/-- A second, different message built by the same sender at the same clock
reading. -/
def msgC2 : ACLMessage :=
  ACLMessage.build Performative.inform "agent-A" "agent-B" (Content.str "flood")
    "python-dict" "disaster-response" "fipa-request" none none none 7

/-- C9 (code bug): `_generate_message_id` derives the id purely from the
sender and the current clock reading, so two distinct constructions by the
same sender at the same clock microsecond get EQUAL message ids — the
docstring "Generate unique message ID" and the spec's uniqueness claim fail.
The second part of the claim does hold: with no supplied conversation id a
fresh `CONV_...` id is assigned. -/
theorem message_id_collision :
    msgC1 ≠ msgC2
    ∧ msgC1.message_id = msgC2.message_id
    ∧ msgC1.conversation_id = genConversationId 7 := by
  decide

/-- C10: `receive_message` appends the message to both the inbox and the
message history unconditionally — `validate` is never consulted — and the
next `process_messages` pass dequeues the message and hands it to
`_process_message` (handler dispatch) regardless of validity. -/
theorem receive_message_no_validation (a : CAgent) (m : ACLMessage) :
    (receive_message a m).inbox = a.inbox ++ [m]
    ∧ (receive_message a m).message_history = a.message_history ++ [m]
    ∧ ∀ (hs : HandlerTable) (fuel : Nat), a.inbox = [] →
        process_messages hs (fuel + 1) (receive_message a m)
          = process_messages hs fuel
              (process_message hs { receive_message a m with inbox := [] } m) := by
  refine ⟨rfl, rfl, fun hs fuel h => ?_⟩
  have hA : receive_message a m
      = { a with inbox := [m], message_history := a.message_history ++ [m] } := by
    simp [receive_message, h]
  rw [hA]
  rfl

/-- A concrete message that fails validation (empty sender). -/
def msgInvalid : ACLMessage :=
  ACLMessage.build Performative.inform "" "agent-B" Content.null
    "python-dict" "disaster-response" "fipa-request" none none none 5

theorem receive_message_no_validation_witness :
    process_messages default_handlers 1 (receive_message agentW msgInvalid)
      = process_messages default_handlers 0
          (process_message default_handlers
            { receive_message agentW msgInvalid with inbox := [] } msgInvalid) :=
  (receive_message_no_validation agentW msgInvalid).2.2 default_handlers 0 rfl

/-- The shape the spec requires of the `not-understood` fallback reply to a
message: right performative, addressed to the original sender, threaded to
the original message id, and carrying a reason plus the original message id
in its content. -/
def IsNotUnderstoodReply (original reply : ACLMessage) : Prop :=
  reply.performative = Performative.not_understood
  ∧ reply.receiver = original.sender
  ∧ reply.in_reply_to = some original.message_id
  ∧ ∃ reason : String,
      reply.content = Content.dict
        [("reason", Value.vstr reason),
         ("original_message", Value.vstr original.message_id)]

/-- Model of `_send_not_understood` appends exactly one well-formed `not-understood`
reply to the outbox and the history, provided the reply passes validation
(non-empty original sender and agent id). -/
lemma send_not_understood_spec (a : CAgent) (m : ACLMessage) (reason : String)
    (h1 : m.sender ≠ "") (h2 : a.agent_id ≠ "") :
    ∃ reply, IsNotUnderstoodReply m reply
      ∧ send_not_understood a m reason
          = { a with clock := a.clock + 1,
                     outbox := a.outbox ++ [reply],
                     message_history := a.message_history ++ [reply] } := by
  refine ⟨m.create_reply Performative.not_understood
      (Content.dict
        [("reason", Value.vstr reason),
         ("original_message", Value.vstr m.message_id)])
      a.agent_id a.clock, ⟨rfl, rfl, rfl, reason, rfl⟩, ?_⟩
  have hv : (ACLMessage.validate (m.create_reply Performative.not_understood
      (Content.dict
        [("reason", Value.vstr reason),
         ("original_message", Value.vstr m.message_id)])
      a.agent_id a.clock)).1 = true := by
    simp [ACLMessage.validate, ACLMessage.create_reply, ACLMessage.build, h1, h2]
  simp [send_not_understood, send_message, hv]

/-- A disconfirm message whose sender is the empty (falsy) string. -/
def msgDiscEmpty : ACLMessage :=
  ACLMessage.build Performative.disconfirm "" "agent-B" (Content.str "x")
    "python-dict" "disaster-response" "fipa-request" none none none 6

/-- C4 counterexample: with the default handler table, `disconfirm` has no
handler, yet processing such a message whose sender is the empty string
produces NO outbound reply at all: the synthesized `not-understood` reply has
an empty receiver, so `send_message` drops it at validation. -/
theorem unhandled_empty_sender_no_reply :
    default_handlers msgDiscEmpty.performative = none
    ∧ (process_message default_handlers agentW msgDiscEmpty).outbox = [] :=
  ⟨rfl, rfl⟩

/-- C4 (amended): provided the original message's sender and the processing
agent's id are non-empty, a message whose performative has no registered
handler, or whose handler raises, produces exactly one outbound
`not-understood` reply addressed to the original sender and carrying a reason
and the original message id; no exception propagates (`process_message` is a
total function) and the inbox drain continues with the next message. -/
theorem not_understood_fallback (hs : HandlerTable) (a : CAgent) (m : ACLMessage)
    (hsender : m.sender ≠ "") :
    (hs m.performative = none → a.agent_id ≠ "" →
      ∃ reply, IsNotUnderstoodReply m reply
        ∧ (process_message hs a m).outbox = a.outbox ++ [reply]
        ∧ (process_message hs a m).message_history = a.message_history ++ [reply])
    ∧ (∀ (h : Handler) (a1 : CAgent) (err : String),
        hs m.performative = some h → h a m = (a1, some err) → a1.agent_id ≠ "" →
        ∃ reply, IsNotUnderstoodReply m reply
          ∧ (process_message hs a m).outbox = a1.outbox ++ [reply]
          ∧ (process_message hs a m).message_history = a1.message_history ++ [reply])
    ∧ ∀ (fuel : Nat) (rest : List ACLMessage), a.inbox = m :: rest →
        process_messages hs (fuel + 1) a
          = process_messages hs fuel (process_message hs { a with inbox := rest } m) := by
  refine ⟨fun hnone hid => ?_, fun h a1 err hsome hrun hid => ?_,
    fun fuel rest hinbox => ?_⟩
  · obtain ⟨reply, hp, heq⟩ :=
      send_not_understood_spec a m ("No handler for " ++ m.performative.value) hsender hid
    refine ⟨reply, hp, ?_, ?_⟩ <;> simp [process_message, hnone, heq]
  · obtain ⟨reply, hp, heq⟩ := send_not_understood_spec a1 m err hsender hid
    refine ⟨reply, hp, ?_, ?_⟩ <;> simp [process_message, hsome, hrun, heq]
  · obtain ⟨aid, ib, ob, hist, clk⟩ := a
    simp only at hinbox
    subst hinbox
    rfl

/-- A disconfirm message from a real sender. -/
def msgDisc : ACLMessage :=
  ACLMessage.build Performative.disconfirm "agent-A" "agent-B" (Content.str "x")
    "python-dict" "disaster-response" "fipa-request" none none none 6

theorem not_understood_fallback_witness :
    ∃ reply, IsNotUnderstoodReply msgDisc reply
      ∧ (process_message default_handlers agentW msgDisc).outbox
          = agentW.outbox ++ [reply]
      ∧ (process_message default_handlers agentW msgDisc).message_history
          = agentW.message_history ++ [reply] :=
  (not_understood_fallback default_handlers agentW msgDisc (by decide)).1 rfl (by decide)

/-- C8 counterexample: with no handler overrides, a `disconfirm` message is
NOT trace-only: `_register_default_handlers` registers no handler for
`disconfirm`, so processing one emits an outbound `not-understood` reply. -/
theorem disconfirm_not_trace_only :
    (process_message default_handlers agentW msgDisc).outbox ≠ [] := by
  decide

/-- C8 (amended): with no handler overrides, `inform` and `confirm` messages
are trace-only (the agent is left unchanged, no outbound message);
`disconfirm`, having no default handler, yields exactly one outbound
`not-understood` reply; and a `request` yields exactly one outbound `refuse`
reply whose conversation id equals the original's — the reply-producing cases
under the non-degeneracy conditions (non-empty sender, agent id and
conversation id) that every constructor-built message and agent satisfies. -/
theorem default_handlers_behaviour (a : CAgent) (m : ACLMessage) :
    (m.performative = Performative.inform → process_message default_handlers a m = a)
    ∧ (m.performative = Performative.confirm → process_message default_handlers a m = a)
    ∧ (m.performative = Performative.disconfirm → m.sender ≠ "" → a.agent_id ≠ "" →
        ∃ reply, IsNotUnderstoodReply m reply
          ∧ (process_message default_handlers a m).outbox = a.outbox ++ [reply])
    ∧ (m.performative = Performative.request → m.sender ≠ "" → a.agent_id ≠ "" →
        m.conversation_id ≠ "" →
        ∃ reply, reply.performative = Performative.refuse
          ∧ reply.conversation_id = m.conversation_id
          ∧ reply.receiver = m.sender
          ∧ (process_message default_handlers a m).outbox = a.outbox ++ [reply]) := by
  refine ⟨fun hm => ?_, fun hm => ?_, fun hm h1 h2 => ?_, fun hm h1 h2 hconv => ?_⟩
  · simp [process_message, hm, default_handlers, handle_inform]
  · simp [process_message, hm, default_handlers, handle_confirm]
  · obtain ⟨reply, hp, heq⟩ :=
      send_not_understood_spec a m ("No handler for " ++ m.performative.value) h1 h2
    rw [hm] at heq
    refine ⟨reply, hp, ?_⟩
    simp [process_message, hm, default_handlers, heq]
  · refine ⟨m.create_reply Performative.refuse
      (Content.dict
        [("reason", Value.vstr "Action not supported"),
         ("action", extract_action m)])
      a.agent_id a.clock, rfl, ?_, rfl, ?_⟩
    · simp [ACLMessage.create_reply, ACLMessage.build, hconv]
    · have hv : (ACLMessage.validate (m.create_reply Performative.refuse
          (Content.dict
            [("reason", Value.vstr "Action not supported"),
             ("action", extract_action m)])
          a.agent_id a.clock)).1 = true := by
        simp [ACLMessage.validate, ACLMessage.create_reply, ACLMessage.build, h1, h2]
      simp [process_message, hm, default_handlers, handle_request, send_message, hv]

theorem default_handlers_behaviour_witness :
    ∃ reply, reply.performative = Performative.refuse
      ∧ reply.conversation_id = msgW.conversation_id
      ∧ reply.receiver = msgW.sender
      ∧ (process_message default_handlers agentW msgW).outbox
          = agentW.outbox ++ [reply] :=
  (default_handlers_behaviour agentW msgW).2.2.2 rfl (by decide) (by decide) (by decide)

end DisasterResponse
